import Mathlib

/-!
# Verification of the Ardour disk-streaming core

A shallow embedding of the playback-side disk streaming engine of this
repository, together with theorems settling the frozen claims about it.

Embedded components:
* `Evoral.Beats` (`src/libs/evoral/evoral/Beats.hpp`): musical time as a
  beats/ticks pair at `PPQN = 1920`, with `normalize` and the constructors.
* `DiskReader::DeclickAmp` (`src/libs/ardour/disk_reader.cc`): the one-pole
  declick gain ramp, modelled in exact rational arithmetic.
* The `TransportFSM` (transport state machine header, `src/unnamed/part_001`):
  states, events, deferral in `ButlerWait`, and the transition table.
* `DiskReader` (`src/libs/ardour/disk_reader.cc`): the realtime `run` path and
  the butler-side `seek` / `refill_audio` / `refill_midi` pipeline.

Machine integers of the source are embedded as `Int`/`Nat` (the claims do not
exercise 32-bit overflow; counter wrap-around is noted where relevant).
Sample payloads are not tracked: ring buffers carry their index state and
counts, and writes into the caller's output buffers are recorded as an
explicit effect trace, which is what the claims are about.

`PlaybackBuffer`, `MidiRingBuffer` and the playlist readers live outside the
provided sources (libs/pbd and the playlist code are not under `src/`); they
are modelled from the spec where noted.
-/

namespace ArdourSpec

/-! ## Beats (src/libs/evoral/evoral/Beats.hpp) -/

/-- Ticks per beat (`Beats::PPQN`). -/
def PPQN : ℤ := 1920

/-- First loop of `Beats::normalize`: while `_ticks < 0` do `--_beats;
`_ticks += PPQN`.  (The source runs this only when `_beats >= 0`.) -/
def fixNegTicks (b t : ℤ) : ℤ × ℤ :=
  if t < 0 then fixNegTicks (b - 1) (t + PPQN) else (b, t)
termination_by (-t).toNat
decreasing_by
  simp only [PPQN] at *
  omega

/-- Second loop of `Beats::normalize`: while `ticks >= PPQN` do `++beats;
`ticks -= PPQN`. -/
def reduceTicks (b t : ℤ) : ℤ × ℤ :=
  if PPQN ≤ t then reduceTicks (b + 1) (t - PPQN) else (b, t)
termination_by t.toNat
decreasing_by
  simp only [PPQN] at *
  omega

/-- `Beats::normalize` (lines 42-65 of Beats.hpp): fix negative ticks with
nonnegative beats, then reduce `|ticks|` below `PPQN` working on absolute
values, and reapply the sign of the beats field to both fields. -/
def Beats.normalize (b t : ℤ) : ℤ × ℤ :=
  let bt1 := if 0 ≤ b then fixNegTicks b t else (b, t)
  let sign : ℤ := if bt1.1 < 0 then -1 else 1
  let bt2 := reduceTicks |bt1.1| |bt1.2|
  (sign * bt2.1, sign * bt2.2)

/-- The `Beats(int32_t, int32_t)` constructor: store the pair and normalize. -/
def Beats.mk (b t : ℤ) : ℤ × ℤ := Beats.normalize b t

/-- The tick value represented by a beats/ticks pair (`Beats::to_ticks`). -/
def Beats.toTicks (p : ℤ × ℤ) : ℤ := p.1 * PPQN + p.2

/-- Truncation toward zero of a rational, as the C++ `double -> int32_t`
conversion and `modf`'s integral part behave: floor for nonnegative values,
ceiling for negative ones. -/
def ratTrunc (x : ℚ) : ℤ := if 0 ≤ x then ⌊x⌋ else ⌈x⌉

/-- The `Beats(double)` constructor (lines 72-79 of Beats.hpp): split the
argument into integral and fractional parts with `modf`, store the integral
part in `_beats` and `frac * PPQN` — implicitly truncated toward zero by the
`int32_t` conversion — in `_ticks`.  Real numbers are embedded as rationals;
the counterexample inputs below are exactly representable as doubles and the
double computation is exact on them. -/
def Beats.fromReal (x : ℚ) : ℤ × ℤ :=
  let whole := ratTrunc x
  let frac := x - (whole : ℚ)
  (whole, ratTrunc (frac * (PPQN : ℚ)))

/-! ## DeclickAmp (src/libs/ardour/disk_reader.cc, lines 1434-1483)

The declick ramp state is the coefficient `_a = 4550 / sample_rate` and the
current gain `_g`.  `apply_gain` multiplies the buffer by the running gain in
blocks of up to 16 samples, updating `g += a * (target - g)` once per block,
and snaps `_g` to `target` at the end of the call when `|g - target| < 1e-5`.
The source computes in 32-bit floats; the embedding uses exact rationals with
the same control flow. -/

/-- `MAX_NPROC`: the declick block size. -/
def MAX_NPROC : ℕ := 16

/-- The declick snap threshold `GAIN_COEFF_DELTA = 1e-5`. -/
def GAIN_COEFF_DELTA : ℚ := 1 / 100000

/-- Declick amp state: smoothing coefficient and current gain. -/
structure DeclickAmp where
  a : ℚ
  g : ℚ
  deriving Repr, DecidableEq

/-- `DeclickAmp::DeclickAmp (sample_rate)`: `_a = 4550 / sample_rate`,
`_g = 0`. -/
def DeclickAmp.init (sample_rate : ℚ) : DeclickAmp :=
  { a := 4550 / sample_rate, g := 0 }

/-- The block loop of `DeclickAmp::apply_gain`: scale up to `MAX_NPROC`
samples by the running gain, update the gain once per block, recurse on the
rest.  Structural recursion on a fuel argument instantiated with the buffer
length (each iteration of the source loop consumes at least one sample). -/
def applyGainBlocks (a target : ℚ) : ℕ → List ℚ → ℚ → List ℚ × ℚ
  | 0, buf, g => (buf, g)
  | _ + 1, [], g => ([], g)
  | fuel + 1, buf@(_ :: _), g =>
      let n_proc := min MAX_NPROC buf.length
      let blk := (buf.take n_proc).map (· * g)
      let g' := g + a * (target - g)
      let rest := applyGainBlocks a target fuel (buf.drop n_proc) g'
      (blk ++ rest.1, rest.2)

/-- `DeclickAmp::apply_gain (buf, n_samples, target)`: no-op on an empty
buffer; constant-gain multiply when the gain already equals the target;
otherwise the block ramp followed by the snap-to-target test. -/
def DeclickAmp.apply_gain (amp : DeclickAmp) (buf : List ℚ) (target : ℚ) :
    List ℚ × DeclickAmp :=
  if buf.length = 0 then (buf, amp)
  else if amp.g = target then (buf.map (· * target), amp)
  else if |(applyGainBlocks amp.a target buf.length buf amp.g).2 - target| <
      GAIN_COEFF_DELTA then
    ((applyGainBlocks amp.a target buf.length buf amp.g).1, { amp with g := target })
  else
    ((applyGainBlocks amp.a target buf.length buf amp.g).1,
     { amp with g := (applyGainBlocks amp.a target buf.length buf amp.g).2 })

/-- The gain evolution of `apply_gain` on a buffer of `n` samples, used by
the `DiskReader::run` embedding (which does not track sample payloads):
exactly the `DeclickAmp.apply_gain` update of `_g` with the buffer contents
projected away. -/
def DeclickAmp.gainAfter (amp : DeclickAmp) (n : ℕ) (target : ℚ) : DeclickAmp :=
  (amp.apply_gain (List.replicate n 0) target).2

/-- Repeated `apply_gain` calls toward target 0 on zero-initialized
16-sample buffers (one gain update per call), as in the declick fade-out of
a stopping transport: the gain sequence of spec §8's declick property. -/
def declickIter (amp : DeclickAmp) : ℕ → DeclickAmp
  | 0 => amp
  | k + 1 => ((declickIter amp k).apply_gain (List.replicate 16 0) 0).2

/-! ## TransportFSM (src/unnamed/part_001, src/libs/ardour/transport_fsm.cc) -/

/-- The `locate` event payload (target and flags). -/
structure LocateArgs where
  target : ℤ
  with_roll : Bool
  with_flush : Bool
  with_loop : Bool
  force : Bool
  deriving Repr, DecidableEq

/-- FSM states.  `MasterWait` is declared by the source but has no
transitions in the table. -/
inductive TState
  | Stopped
  | Rolling
  | Locating
  | DeclickOut
  | ButlerWait
  | MasterWait
  deriving Repr, DecidableEq

/-- FSM events. -/
inductive TEvent
  | start
  | stop (abort clear_state : Bool)
  | locate (l : LocateArgs)
  | locate_done
  | butler_done
  | butler_required
  | declick_done
  deriving Repr, DecidableEq

/-- Actions the FSM performs on its `TransportAPI` collaborator, recorded as
a trace. -/
inductive TAction
  | start_playback
  | stop_playback (abort clear_state : Bool)
  | start_locate (l : LocateArgs)
  | butler_completed_transport_work
  | schedule_butler_for_transport_work
  | exit_declick
  | locate_phase_two
  | roll_after_locate
  deriving Repr, DecidableEq

/-- The extended state of the machine: current state, the
`_stopped_to_locate` flag, the latched `_last_locate` request, and the queue
of deferred events attached to `ButlerWait`. -/
structure TMachine where
  state : TState
  stopped_to_locate : Bool
  last_locate : LocateArgs
  deferred : List TEvent
  deriving Repr, DecidableEq

/-- `ButlerWait` defers `start` and `stop` (both via its `deferred_events`
typedef and via the explicit `Defer` rows of the transition table).
`butler_required` in `ButlerWait` is handled by the explicit self-transition
row instead. -/
def defersEvent (s : TState) (e : TEvent) : Bool :=
  s = TState.ButlerWait &&
    (match e with
     | TEvent.start => true
     | TEvent.stop _ _ => true
     | _ => false)

/-- One row lookup of the transition table (part_001 lines 194-226) plus the
transition actions and guards (lines 170-186).  `sr` is the
`should_roll_after_locate` guard, a virtual consulting the `TransportAPI` in
`TransportSM` (the base-class default returns false); it is supplied by the
environment.  `mark_for_locate` sets `_stopped_to_locate`, latches
`_last_locate` and invokes `stop_playback (stop ())`; `mark_for_stop` clears
`_stopped_to_locate` and invokes `stop_playback (s)`.  A state/event pair
with no row is a no-transition: the machine is unchanged. -/
def transition (sr : Bool) (m : TMachine) (e : TEvent) : TMachine × List TAction :=
  match m.state, e with
  | TState.Stopped, TEvent.start =>
      ({ m with state := TState.Rolling }, [TAction.start_playback])
  | TState.Stopped, TEvent.stop _ _ => (m, [])
  | TState.Stopped, TEvent.locate l =>
      ({ m with state := TState.Locating, stopped_to_locate := true,
                last_locate := l }, [TAction.stop_playback false false])
  | TState.Stopped, TEvent.butler_done =>
      (m, [TAction.butler_completed_transport_work])
  | TState.Stopped, TEvent.butler_required =>
      ({ m with state := TState.ButlerWait },
       [TAction.schedule_butler_for_transport_work])
  | TState.Rolling, TEvent.stop ab cl =>
      ({ m with state := TState.DeclickOut, stopped_to_locate := false },
       [TAction.stop_playback ab cl])
  | TState.Rolling, TEvent.start => (m, [])
  | TState.Rolling, TEvent.locate l =>
      ({ m with state := TState.DeclickOut, stopped_to_locate := true,
                last_locate := l }, [TAction.stop_playback false false])
  | TState.Rolling, TEvent.butler_done => (m, [])
  | TState.DeclickOut, TEvent.declick_done =>
      if m.stopped_to_locate then
        ({ m with state := TState.Locating }, [TAction.exit_declick])
      else
        ({ m with state := TState.Stopped }, [TAction.exit_declick])
  | TState.DeclickOut, TEvent.butler_required =>
      ({ m with state := TState.ButlerWait },
       [TAction.schedule_butler_for_transport_work])
  | TState.Locating, TEvent.locate_done =>
      if sr then ({ m with state := TState.Rolling }, [TAction.roll_after_locate])
      else ({ m with state := TState.Stopped }, [])
  | TState.Locating, TEvent.stop ab cl =>
      ({ m with state := TState.Stopped }, [TAction.stop_playback ab cl])
  | TState.Locating, TEvent.start => ({ m with state := TState.Rolling }, [])
  | TState.Locating, TEvent.locate _ => ({ m with state := TState.Rolling }, [])
  | TState.Locating, TEvent.butler_done => (m, [])
  | TState.Locating, TEvent.butler_required =>
      ({ m with state := TState.ButlerWait },
       [TAction.schedule_butler_for_transport_work])
  | TState.ButlerWait, TEvent.butler_done =>
      if m.stopped_to_locate then
        ({ m with state := TState.Locating }, [TAction.locate_phase_two])
      else
        ({ m with state := TState.Stopped },
         [TAction.butler_completed_transport_work])
  | TState.ButlerWait, TEvent.butler_required =>
      (m, [TAction.schedule_butler_for_transport_work])
  | _, _ => (m, [])

/-- Retry pass over the deferred queue, run after a processed event
(`activate_deferred_events`): the queued events are re-injected in FIFO
order; an event that is deferred again (because the machine is back in
`ButlerWait`) goes to the back of the queue. -/
def drainDeferred (sr : Bool) : List TEvent → TMachine → TMachine × List TAction
  | [], m => (m, [])
  | e :: rest, m =>
      if defersEvent m.state e then
        drainDeferred sr rest { m with deferred := m.deferred ++ [e] }
      else
        let r1 := transition sr m e
        let r2 := drainDeferred sr rest r1.1
        (r2.1, r1.2 ++ r2.2)

/-- Deliver one external event: a deferrable event in `ButlerWait` is
appended to the queue; otherwise the transition fires and the deferred queue
is replayed in FIFO order before any further external event is seen. -/
def step (sr : Bool) (m : TMachine) (e : TEvent) : TMachine × List TAction :=
  if defersEvent m.state e then
    ({ m with deferred := m.deferred ++ [e] }, [])
  else
    let r1 := transition sr m e
    let q := r1.1.deferred
    let r2 := drainDeferred sr q { r1.1 with deferred := [] }
    (r2.1, r1.2 ++ r2.2)

/-! ## PlaybackBuffer ring (spec §4.2)

Modelled from the spec: `PBD::PlaybackBuffer<T>` lives in libs/pbd, which is
not among the provided sources.  Per spec §4.2/§3 it is a lock-free SPSC ring
with fields `capacity`, `read_idx`, `write_idx`; readable count is
`(write_idx - read_idx) mod capacity`, writable count is
`capacity - 1 - readable` (one slot reserved), `read`/`write` are non-blocking
and transfer `min(requested, available)` elements, advancing the respective
index; `read` with `advance = false` peeks at `offset` past the read pointer.
Sample payloads are not tracked — the claims are about index state. -/
structure Ring where
  size : ℕ
  read_idx : ℕ
  write_idx : ℕ
  deriving Repr, DecidableEq

namespace Ring

/-- Modelled from the spec: readable count `(write_idx - read_idx) mod capacity`. -/
def read_space (r : Ring) : ℕ := (r.write_idx + r.size - r.read_idx) % r.size

/-- Modelled from the spec: writable count `capacity - 1 - readable`. -/
def write_space (r : Ring) : ℕ := r.size - 1 - r.read_space

/-- Modelled from the spec: non-blocking advancing read; transfers
`min n read_space` samples and commits the read pointer past them. -/
def read (r : Ring) (n : ℕ) : ℕ × Ring :=
  let c := min n r.read_space
  (c, { r with read_idx := (r.read_idx + c) % r.size })

/-- Modelled from the spec: non-advancing read (`advance = false`) peeking
`offset` samples past the read pointer; returns the count obtainable. -/
def peek (r : Ring) (n offset : ℕ) : ℕ := min n (r.read_space - offset)

/-- Modelled from the spec: advance the read pointer by up to `n`, returning
the distance actually advanced. -/
def increment_read_ptr (r : Ring) (n : ℕ) : ℕ × Ring := r.read n

/-- Modelled from the spec: retreat the read pointer into already-consumed
history by up to `n`, returning the distance actually retreated. -/
def decrement_read_ptr (r : Ring) (n : ℕ) : ℕ × Ring :=
  let c := min n r.write_space
  (c, { r with read_idx := (r.read_idx + r.size - c % r.size) % r.size })

/-- Modelled from the spec: `can_seek (d)` — enough readable data for a
forward skip of `d`, or enough consumed history for a negative `d`. -/
def can_seek (r : Ring) (d : ℤ) : Bool :=
  if 0 ≤ d then d ≤ (r.read_space : ℤ) else -d ≤ (r.write_space : ℤ)

/-- Modelled from the spec: non-blocking write of up to `n` samples. -/
def write (r : Ring) (n : ℕ) : ℕ × Ring :=
  let c := min n r.write_space
  (c, { r with write_idx := (r.write_idx + c) % r.size })

/-- Modelled from the spec: `write_zero (n)` appends `n` zero samples. -/
def write_zero (r : Ring) (n : ℕ) : Ring := (r.write n).2

/-- Modelled from the spec: `reset ()` empties the ring. -/
def reset (r : Ring) : Ring := { r with read_idx := 0, write_idx := 0 }

/-- Modelled from the spec: `read_flush ()` discards everything readable. -/
def read_flush (r : Ring) : Ring := { r with read_idx := r.write_idx }

end Ring

/-! ## MIDI event ring and note tracker (spec §2.4)

Modelled from the spec: the `MidiRingBuffer` / note tracker live outside the
provided sources.  Per spec it is a time-ordered event buffer with
read/write/reset and a resolve-tracker operation emitting note-offs for the
currently sounding notes.  Events are (timestamp, payload) pairs; the tracker
is the list of sounding notes. -/
structure MidiRing where
  capacity : ℕ
  events : List (ℤ × ℕ)
  tracker : List ℕ
  deriving Repr, DecidableEq

namespace MidiRing

/-- Modelled from the spec: free space of the event buffer. -/
def write_space (m : MidiRing) : ℕ := m.capacity - m.events.length

/-- Modelled from the spec: `reset ()` clears the buffered events. -/
def reset (m : MidiRing) : MidiRing := { m with events := [] }

/-- Modelled from the spec: `reset_tracker ()` forgets all sounding notes. -/
def reset_tracker (m : MidiRing) : MidiRing := { m with tracker := [] }

/-- Modelled from the spec: `skip_to (start)` drops events stamped before
`start`, returning how many were dropped. -/
def skip_to (m : MidiRing) (start : ℤ) : ℕ × MidiRing :=
  ((m.events.filter (fun e => e.1 < start)).length,
   { m with events := m.events.filter (fun e => start ≤ e.1) })

/-- Modelled from the spec: `read (dst, start, end)` delivers the events
stamped in `[start, end)` and consumes everything stamped before `end`. -/
def readRange (m : MidiRing) (start stop : ℤ) : List (ℤ × ℕ) × MidiRing :=
  (m.events.filter (fun e => start ≤ e.1 ∧ e.1 < stop),
   { m with events := m.events.filter (fun e => stop ≤ e.1) })

/-- Modelled from the spec: `resolve_tracker (dst, time)` emits note-offs at
`time` for every sounding note and clears the tracker. -/
def resolve_tracker (m : MidiRing) (time : ℤ) : List (ℤ × ℕ) × MidiRing :=
  (m.tracker.map (fun n => (time, n)), { m with tracker := [] })

/-- Modelled from the spec: a playlist read appends events into the ring. -/
def append (m : MidiRing) (evs : List (ℤ × ℕ)) : MidiRing :=
  { m with events := m.events ++ evs }

end MidiRing

/-! ## DiskReader state, environment and effect trace -/

/-- `max_samplepos`: the largest `samplepos_t` (int64 max). -/
def max_samplepos : ℤ := 9223372036854775807

/-- `DiskReader::midi_readahead = 4096`. -/
def midi_readahead : ℤ := 4096

/-- `MonitorState` (route monitoring bitflags Disk / Input). -/
structure MonitorState where
  disk : Bool
  input : Bool
  deriving Repr, DecidableEq

/-- The mutable state of one `DiskReader` (fields of disk_reader.h and the
inherited `DiskIOProcessor` fields the code under verification uses). -/
structure DRState where
  active : Bool
  pending_active : Bool
  pending_overwrite : Bool
  overwrite_sample : ℤ
  playback_sample : ℤ
  file_sample_audio : ℤ
  file_sample_midi : ℤ
  channels : List Ring
  midi_buf : Option MidiRing
  playlist_trackers : List ℕ
  samples_read_from_ringbuffer : ℕ
  samples_written_to_ringbuffer : ℕ
  need_butler : Bool
  declick : DeclickAmp
  declick_offs : ℤ
  deriving Repr, DecidableEq

/-- The session / route / configuration environment a `DiskReader` call
observes.  Playlist reads are abstracted by a success predicate (audio) and
an event supply (MIDI): the samples themselves are not tracked. -/
structure Env where
  loading : Bool
  transport_speed : ℚ
  chunk_samples : ℤ
  bits_per_sample : ℕ
  use_transport_fades : Bool
  global_locate_pending : Bool
  no_disk_output : Bool
  slaved : Bool
  has_audio_playlist : Bool
  audio_read_ok : ℤ → ℤ → Bool
  has_midi_playlist : Bool
  midi_read_ok : ℤ → ℤ → Bool
  midi_events : ℤ → ℤ → List (ℤ × ℕ)
  loop_location : Option (ℤ × ℤ)
  monitoring : MonitorState
  n_audio_buffers : ℕ
  n_midi_buffers : ℕ

/-- Arguments of `DiskReader::run`. -/
structure RunArgs where
  start_sample : ℤ
  end_sample : ℤ
  speed : ℤ
  nframes : ℕ
  result_required : Bool

/-- Externally observable effects of a `DiskReader` call: the `Underrun`
signal, silencing or writing into the caller's buffers, the fatal
misalignment branch, MIDI event delivery (`toScratch` when the destination
is a scratch buffer), merging disk MIDI into the input signal, and the
skipped-events warning. -/
inductive Effect
  | underrun
  | silence (nframes : ℕ)
  | audioOut (chan : ℕ) (count : ℕ)
  | fatalAlignment
  | midiOut (toScratch : Bool) (events : List (ℤ × ℕ))
  | midiMerge (nframes : ℕ)
  | warnSkipped (count : ℕ)
  deriving Repr, DecidableEq

/-! ## Butler path: audio_read, refill_audio, refill_midi, seek
(src/libs/ardour/disk_reader.cc lines 585-649, 709-819, 845-1032, 1274-1419) -/

/-- `Evoral::Range::squish` as spec §4.6 describes it: wrap a position into
the loop range `[ls, le)`.  Modelled from the spec (Range.hpp is not among
the provided sources). -/
def squish (ls le x : ℤ) : ℤ :=
  if ls ≤ x ∧ x < le then x else ls + (x - ls) % (le - ls)

/-- The `while (cnt)` loop of `DiskReader::audio_read` (lines 773-816):
clip each read at the loop end, read `this_read` samples from the playlist
(failure aborts with `ok = false`), advance the cursor — back to the loop
start after a reloop, not at all when reversed — and write the block into
the ring.  Returns (ring, cursor, ok).  The recursion is fuelled by the
requested count, which bounds every terminating execution of the source
loop. -/
def audioReadLoop (env : Env) (loc : Option (ℤ × ℤ)) (reversed : Bool) :
    ℕ → Ring → ℤ → ℤ → Ring × ℤ × Bool
  | 0, r, start, _ => (r, start, true)
  | fuel + 1, r, start, cnt =>
      if cnt = 0 then (r, start, true)
      else
        let tr : ℤ × Bool :=
          match loc with
          | some (_, le) => if le - start < cnt then (le - start, true) else (cnt, false)
          | none => (cnt, false)
        if tr.1 = 0 then (r, start, true)
        else
          let this_read := min cnt tr.1
          if ¬ env.audio_read_ok start this_read then (r, start, false)
          else
            let start' :=
              if reversed then start
              else match loc with
                   | some (ls, _) => if tr.2 then ls else start + this_read
                   | none => start + this_read
            let r' := (r.write this_read.toNat).2
            audioReadLoop env loc reversed fuel r' start' (cnt - this_read)

/-- `DiskReader::audio_read` (lines 716-819): without an audio playlist,
zero-fill the ring; otherwise wrap the start into the loop (forward
direction only — `loc` stays null when reversed), pre-decrement the start
when reversed, and run the split-read loop. -/
def audio_read (env : Env) (r : Ring) (start cnt : ℤ) (reversed : Bool) :
    Ring × ℤ × Bool :=
  if ¬ env.has_audio_playlist then (r.write_zero cnt.toNat, start, true)
  else
    let loc := if reversed then none else env.loop_location
    let start1 :=
      match loc with
      | some (ls, le) => if start ≥ le then ls + (start - ls) % (le - ls) else start
      | none => start
    let start2 := if reversed then start1 - cnt else start1
    audioReadLoop env loc reversed (cnt.toNat + 1) r start2 cnt

/-- The byte-size optimisation of `DiskReader::refill_audio` (lines
977-986): clamp the available byte count to [256 KiB, 4 MiB], then round
down to the nearest multiple of 16384. -/
def byte_size_for_read (total_bytes : ℕ) : ℕ :=
  (max (256 * 1024) (min (4 * 1048576) total_bytes)) / 16384 * 16384

/-- The per-channel loop of `refill_audio` (lines 995-1020): each channel
restarts its cursor at `ffa`, reads
`min (min total_space write_space) samples_to_read` samples, and the cursor
after the last channel becomes the new `file_sample[AUDIO]`.  A playlist
read failure jumps to `out` with `ok = false` (leaving `file_sample`
unassigned).  Returns (channels, final cursor, ok). -/
def refillChansLoop (env : Env) (ffa total_space samples_to_read : ℤ)
    (reversed : Bool) : List Ring → List Ring × ℤ × Bool
  | [] => ([], ffa, true)
  | r :: rest =>
      let to_read := min (min total_space (r.write_space : ℤ)) samples_to_read
      if to_read ≠ 0 then
        let res := audio_read env r ffa to_read reversed
        if res.2.2 then
          let tail := refillChansLoop env ffa total_space samples_to_read reversed rest
          (res.1 :: tail.1, if rest = [] then res.2.1 else tail.2.1, tail.2.2)
        else (res.1 :: rest, res.2.1, false)
      else
        let tail := refillChansLoop env ffa total_space samples_to_read reversed rest
        (r :: tail.1, if rest = [] then ffa else tail.2.1, tail.2.2)

/-- The decision tree of `DiskReader::refill_audio` past the loading and
empty-channel-list checks (lines 878-1031), acting on the front channel,
the channel list and the audio cursor: no work without space, with too
little space near normal speed, or with too little space while slaved;
silence-fill at the playlist edges; otherwise the byte-optimised read into
every channel.  Returns (ret, channels, file_sample[AUDIO]). -/
def refillAudioCore (env : Env) (c0 : Ring) (channels : List Ring) (ffa : ℤ)
    (fill_level : ℤ) : ℤ × List Ring × ℤ :=
  let reversed := env.transport_speed < 0
  let total_space0 : ℤ := c0.write_space
  if total_space0 = 0 then (0, channels, ffa)
  else
    let total_space1 :=
      if fill_level ≠ 0 ∧ fill_level < total_space0 then total_space0 - fill_level
      else total_space0
    if total_space1 < env.chunk_samples ∧ |env.transport_speed| < 2 then
      (0, channels, ffa)
    else if env.slaved ∧ total_space1 < (c0.size : ℤ) / 2 then (0, channels, ffa)
    else if reversed ∧ ffa = 0 then
      (0, channels.map (fun r => r.write_zero r.write_space), ffa)
    else if ¬ reversed ∧ ffa = max_samplepos then
      (0, channels.map (fun r => r.write_zero r.write_space), ffa)
    else
      let total_space :=
        if reversed then (if ffa < total_space1 then ffa else total_space1)
        else (if ffa > max_samplepos - total_space1 then max_samplepos - ffa
              else total_space1)
      let bits := env.bits_per_sample
      let total_bytes := total_space.toNat * bits / 8
      let samples_to_read : ℤ := (byte_size_for_read total_bytes / (bits / 8) : ℕ)
      let loop := refillChansLoop env ffa total_space samples_to_read reversed channels
      if loop.2.2 then
        ((if total_space - samples_to_read > env.chunk_samples then 1 else 0),
         loop.1, loop.2.1)
      else (-1, loop.1, ffa)

/-- `DiskReader::refill_audio` (lines 867-1032): nothing while the session
is loading or with no channels; otherwise `refillAudioCore`, whose channel
and cursor results are the only state it writes back (`ret = 1` iff more
than a chunk of space remains). -/
def refill_audio (env : Env) (s : DRState) (fill_level : ℤ) : ℤ × DRState :=
  if env.loading then (0, s)
  else
    match s.channels with
    | [] => (0, s)
    | c0 :: _ =>
        match refillAudioCore env c0 s.channels s.file_sample_audio fill_level with
        | (ret, chans, ffa) =>
            (ret, { s with channels := chans, file_sample_audio := ffa })

/-- The `while (dur)` loop of `DiskReader::midi_read` (lines 1298-1365):
squish the effective start into the loop, clip the read at the loop end,
read events from the MIDI playlist into the ring (appending them and
advancing `_samples_written_to_ringbuffer`), and advance the cursors (not
when reversed).  Returns (ring, samples_written, cursor, ok), fuelled by
the requested duration. -/
def midiReadLoop (env : Env) (loc : Option (ℤ × ℤ)) (reversed : Bool) :
    ℕ → MidiRing → ℕ → ℤ → ℤ → ℤ → MidiRing × ℕ × ℤ × Bool
  | 0, mb, sw, start, _, _ => (mb, sw, start, true)
  | fuel + 1, mb, sw, start, effective_start, dur =>
      if dur = 0 then (mb, sw, start, true)
      else
        let tr : ℤ × ℤ :=
          match loc with
          | some (ls, le) =>
              if ¬ reversed then
                let es := squish ls le effective_start
                (if le - es ≤ dur then le - es else dur, es)
              else (dur, effective_start)
          | none => (dur, effective_start)
        if tr.1 = 0 then (mb, sw, start, true)
        else
          let this_read := min dur tr.1
          if ¬ env.midi_read_ok tr.2 this_read then (mb, sw, start, false)
          else
            let mb' := mb.append (env.midi_events tr.2 this_read)
            let sw' := sw + this_read.toNat
            let start' := if reversed then start else start + this_read
            let es' := if reversed then tr.2 else tr.2 + this_read
            midiReadLoop env loc reversed fuel mb' sw' start' es' (dur - this_read)

/-- `DiskReader::midi_read (start, dur, reversed)` (lines 1275-1368),
threaded through the DiskReader state. -/
def midi_read (env : Env) (s : DRState) (start dur : ℤ) (reversed : Bool) :
    DRState × ℤ × Bool :=
  match s.midi_buf with
  | none => (s, start, true)
  | some mb =>
      let loc := env.loop_location
      let res := midiReadLoop env loc reversed (dur.toNat + 1) mb
        s.samples_written_to_ringbuffer start start dur
      ({ s with midi_buf := some res.1, samples_written_to_ringbuffer := res.2.1 },
       res.2.2.1, res.2.2.2)

/-- The read size of `DiskReader::refill_midi` (line 1407-1410): the
readahead lag, bounded by the distance to the playlist end and the ring's
free space. -/
def midiToRead (s : DRState) : ℤ :=
  min (min (midi_readahead - ((s.samples_written_to_ringbuffer : ℤ) -
        (s.samples_read_from_ringbuffer : ℤ)))
      (max_samplepos - s.file_sample_midi))
    (((s.midi_buf.map MidiRing.write_space).getD 0 : ℕ) : ℤ)

/-- `DiskReader::refill_midi` (lines 1370-1419): no-op without playlist or
ring, with no write space, when reversed, at the end, or when the ring is
`midi_readahead` ahead of the reader; otherwise read up to the readahead
lag and assign `file_sample[MIDI]` from the (possibly partially) advanced
cursor. -/
def refill_midi (env : Env) (s : DRState) : ℤ × DRState :=
  if ¬ env.has_midi_playlist ∨ s.midi_buf = none then (0, s)
  else if (s.midi_buf.map MidiRing.write_space).getD 0 = 0 then (0, s)
  else if env.transport_speed < 0 then (0, s)
  else if s.file_sample_midi = max_samplepos then (0, s)
  else if s.samples_read_from_ringbuffer < s.samples_written_to_ringbuffer ∧
      midi_readahead ≤ (s.samples_written_to_ringbuffer : ℤ) -
        (s.samples_read_from_ringbuffer : ℤ) then (0, s)
  else
    match midi_read env s s.file_sample_midi (midiToRead s) false with
    | (s1, ffm, ok) =>
        ((if ok then 0 else -1), { s1 with file_sample_midi := ffm })

/-- `DiskReader::_do_refill_with_alloc (partial_fill)` (lines 821-843):
refill audio (with a one-chunk fill level on a partial fill), then MIDI if
the audio pass reported neither work-remaining nor failure. -/
def do_refill_with_alloc (env : Env) (s : DRState) (fill_one_chunk : Bool) :
    ℤ × DRState :=
  let r := refill_audio env s (if fill_one_chunk then env.chunk_samples else 0)
  if r.1 ≠ 0 then r else refill_midi env r.2

/-- The complete-refill loop of `seek` (line 640):
`while ((ret = do_refill_with_alloc (false)) > 0);`.  Fuelled: every
productive iteration consumes at least one sample of write space, so the
fuel used by `seek` bounds all terminating executions. -/
def refillLoop (env : Env) : ℕ → DRState → ℤ × DRState
  | 0, s => (0, s)
  | fuel + 1, s =>
      let r := do_refill_with_alloc env s false
      if r.1 > 0 then refillLoop env fuel r.2 else r

/-- `DiskReader::reset_tracker` (lines 1120-1131): reset the MIDI ring's
note tracker and the MIDI playlist's note trackers. -/
def reset_tracker (s : DRState) : DRState :=
  { s with midi_buf := s.midi_buf.map MidiRing.reset_tracker,
           playlist_trackers := [] }

/-- The state-resetting prefix of `DiskReader::seek` (lines 607-634): clear
`_pending_overwrite`, reset every audio ring, flush the note trackers when
nothing has been read from the ring since the last seek, reset the MIDI
ring, zero both MIDI flow counters, and move `playback_sample` and both
`file_sample` cursors to the target. -/
def seekStateReset (s : DRState) (sample : ℤ) : DRState :=
  let s1 := { s with pending_overwrite := false,
                     channels := s.channels.map Ring.reset }
  let s2 := if s1.samples_read_from_ringbuffer = 0 then reset_tracker s1 else s1
  let s3 := { s2 with midi_buf := s2.midi_buf.map MidiRing.reset }
  { s3 with samples_read_from_ringbuffer := 0,
            samples_written_to_ringbuffer := 0,
            playback_sample := sample,
            file_sample_audio := sample,
            file_sample_midi := sample }

/-- `DiskReader::seek (sample, complete_refill)` (lines 585-649): the state
reset followed by the refill — repeated to exhaustion on a complete refill,
a single chunk otherwise.  (The debug-build-only early return for a
same-position partial seek, compiled under `#ifndef NDEBUG`, is omitted:
release semantics.) -/
def seek (env : Env) (s : DRState) (sample : ℤ) (complete_refill : Bool) :
    ℤ × DRState :=
  let s1 := seekStateReset s sample
  if complete_refill then
    refillLoop env ((match s1.channels with | [] => 0 | c :: _ => c.size) + 1) s1
  else do_refill_with_alloc env s1 true

/-! ## Realtime pull path: DiskReader::run (lines 242-482) -/

/-- `DiskReader::can_internal_playback_seek (distance)` (lines 651-675):
every channel ring must be able to seek by `distance`; additionally, for a
forward seek the MIDI flow lag must stay below the distance. -/
def can_internal_playback_seek (channels : List Ring) (sr sw : ℕ) (dist : ℤ) :
    Bool :=
  channels.all (fun r => r.can_seek dist) &&
    (if dist < 0 then true else ((sw : ℤ) - (sr : ℤ)) < dist)

/-- `DiskReader::internal_playback_seek (distance)` (lines 677-697): adjust
every channel's read pointer, and move `playback_sample` by the offset the
last channel reported (`off` starts at `distance` and is overwritten per
channel, so it stays `distance` when there are no channels). -/
def internal_playback_seek (channels : List Ring) (dist : ℤ) :
    List Ring × ℤ :=
  if dist = 0 then (channels, 0)
  else
    let adjusted := channels.map (fun r =>
      if dist < 0 then
        let d := r.decrement_read_ptr (-dist).toNat
        (d.2, -(d.1 : ℤ))
      else
        let i := r.increment_read_ptr dist.toNat
        (i.2, (i.1 : ℤ)))
    (adjusted.map Prod.fst, (adjusted.map Prod.snd).getLastD dist)

/-- How the per-channel loop of `run` terminated: finished normally, jumped
to the `midi:` label (the fatal misalignment branch), or returned from `run`
(the underrun branch). -/
inductive LoopExit
  | normal
  | toMidi
  | aborted
  deriving Repr, DecidableEq

/-- State threaded through the per-channel loop of `run`. -/
structure LoopCarry where
  playback_sample : ℤ
  declick : DeclickAmp
  declick_offs : ℤ
  effects : List Effect
  deriving Repr, DecidableEq

/-- The per-channel internal-seek retry of `run` (lines 344-355): when
`start_sample` has diverged from `playback_sample` under a nonzero target
gain, try an internal seek over all rings (moving `playback_sample` by the
offset the last ring reported); if the rings cannot bridge it, the source
`abort ()`s — recorded as a fatal effect — and falls through to the `midi:`
label. -/
def chanSeekAdjust (a : RunArgs) (tg : ℚ) (sr sw : ℕ)
    (all : List Ring) (carry : LoopCarry) : List Ring × LoopCarry × Bool :=
  if a.start_sample ≠ carry.playback_sample ∧ tg ≠ 0 then
    (if can_internal_playback_seek all sr sw (a.start_sample - carry.playback_sample)
     then
      match internal_playback_seek all (a.start_sample - carry.playback_sample) with
      | (all2, off) =>
          (all2, { carry with playback_sample := carry.playback_sample + off }, true)
     else
      (all, { carry with effects := carry.effects ++ [Effect.fatalAlignment] },
       false))
  else (all, carry, true)

/-- The read step of one channel of `run` (lines 357-371): with nonzero
speed, an advancing ring read of the cycle's consumption — a short read
records the data obtained, signals `Underrun` and aborts; with zero speed
during a fade-out, a non-advancing peek at `_declick_offs`, which it then
bumps. -/
def chanReadStep (a : RunArgs) (tg : ℚ) (dstc : ℕ) (n : ℕ) (r1 : Ring)
    (carry1 : LoopCarry) : Ring × LoopCarry × Bool :=
  if a.speed ≠ 0 then
    match r1.read dstc with
    | (got, r2) =>
        if got < dstc then
          (r2, { carry1 with effects :=
              carry1.effects ++ [Effect.audioOut n got, Effect.underrun] },
           false)
        else
          (r2, { carry1 with effects := carry1.effects ++ [Effect.audioOut n got] },
           true)
  else if carry1.declick.g ≠ tg then
    (r1, { carry1 with declick_offs :=
        carry1.declick_offs + r1.peek a.nframes carry1.declick_offs.toNat },
     true)
  else (r1, carry1, true)

/-- The per-channel audio loop of `DiskReader::run` (lines 337-381).  Per
channel: the internal-seek retry (a failure jumps to `midi:`), the read
step (an underrun returns from `run`), then the declick ramp's gain update
on the shared amp state.  Fuelled by the channel count; the seek retry
keeps the pending list's length, so fuel `pending.length` suffices. -/
def runChanLoop (env : Env) (a : RunArgs) (tg : ℚ) (dstc : ℕ)
    (sr sw : ℕ) :
    ℕ → List Ring → List Ring → ℕ → LoopCarry →
    List Ring × LoopCarry × LoopExit
  | 0, done, pending, _, carry => (done ++ pending, carry, LoopExit.normal)
  | fuel + 1, done, pending, n, carry =>
      match pending with
      | [] => (done, carry, LoopExit.normal)
      | r :: rest =>
          match chanSeekAdjust a tg sr sw (done ++ r :: rest) carry with
          | (all2, carry1, ok) =>
            if ok = false then (all2, carry1, LoopExit.toMidi)
            else
              match all2.drop done.length with
              | [] => (all2, carry1, LoopExit.normal)
              | r1 :: rest1 =>
                match chanReadStep a tg dstc n r1 carry1 with
                | (r2, carry2, cont) =>
                  if cont = false then
                    (all2.take done.length ++ r2 :: rest1, carry2, LoopExit.aborted)
                  else
                    runChanLoop env a tg dstc sr sw fuel
                      (all2.take done.length ++ [r2]) rest1 (n + 1)
                      { carry2 with
                          declick := carry2.declick.gainAfter a.nframes tg }

/-- `DiskReader::get_midi_playback` (lines 1150-1272): choose the target
buffer (scratch under input monitoring); when monitoring disk, read from the
MIDI ring — with a loop location, squish the start, resolve the tracker at a
fresh lap, and split the read at the loop end (the source passes `first` as
the second read bound, transcribed literally); without one, `skip_to` the
start (warning if events were dropped) and read `[start, end)`.  Always adds
`nframes` to `_samples_read_from_ringbuffer`; under input monitoring the
disk events are merged into the destination.  Returns the new ring, the
effect trace and the counter increment. -/
def get_midi_playback (env : Env) (mb : MidiRing)
    (start_sample end_sample : ℤ) (ms : MonitorState) (no_disk_output : Bool) :
    MidiRing × List Effect × ℕ :=
  let nframes := (end_sample - start_sample).natAbs
  let toScratch := ms.input || no_disk_output
  let diskPart : MidiRing × List Effect :=
    if ms.disk then
      match env.loop_location with
      | some (ls, le) =>
          let es := squish ls le start_sample
          let resolved : List (ℤ × ℕ) × MidiRing :=
            if es = ls then mb.resolve_tracker 0 else ([], mb)
          let reads : List (ℤ × ℕ) × MidiRing :=
            if le ≥ es ∧ le < es + (nframes : ℤ) then
              let first := le - es
              let second := (nframes : ℤ) - first
              let r1 := if first ≠ 0 then resolved.2.readRange es first
                        else ([], resolved.2)
              let r2 := if second ≠ 0 then r1.2.readRange ls second else ([], r1.2)
              (r1.1 ++ r2.1, r2.2)
            else resolved.2.readRange es (es + nframes)
          (reads.2, [Effect.midiOut toScratch (resolved.1 ++ reads.1)])
      | none =>
          let sk := mb.skip_to start_sample
          let reads := sk.2.readRange start_sample end_sample
          (reads.2,
           (if 0 < sk.1 then [Effect.warnSkipped sk.1] else []) ++
             [Effect.midiOut toScratch reads.1])
    else (mb, [])
  (diskPart.1,
   diskPart.2 ++ (if ms.input then [Effect.midiMerge nframes] else []),
   nframes)

/-- The target gain of a `run` cycle (line 265): 0 when stopped or when
disk monitoring is off, else 1. -/
def runTargetGain (env : Env) (a : RunArgs) : ℚ :=
  if a.speed = 0 ∨ env.monitoring.disk = false then 0 else 1

/-- The no-disk-data audio branch of `run` (lines 307-321): advance every
read pointer (unless still locating without `_no_disk_output`) and silence
the buffers when monitoring disk alone. -/
def runAdvanceOnly (env : Env) (a : RunArgs) (ms : MonitorState) (still : Bool)
    (dstc : ℕ) (s1 : DRState) : DRState × MonitorState × List Effect × Bool :=
  ((if !still || env.no_disk_output then
      { s1 with channels := s1.channels.map (fun r => (r.increment_read_ptr dstc).2) }
    else s1),
   ms,
   (if (env.no_disk_output || still) && ms.disk && !ms.input then
      [Effect.silence a.nframes]
    else []),
   false)

/-- The disk-data audio branch of `run` (lines 323-382): run the
per-channel loop and fold its carry back into the reader state. -/
def runChannelsPart (env : Env) (a : RunArgs) (tg : ℚ) (dstc : ℕ)
    (ms : MonitorState) (s1 : DRState) :
    DRState × MonitorState × List Effect × Bool :=
  match runChanLoop env a tg dstc s1.samples_read_from_ringbuffer
      s1.samples_written_to_ringbuffer s1.channels.length [] s1.channels 0
      { playback_sample := s1.playback_sample, declick := s1.declick,
        declick_offs := s1.declick_offs, effects := [] } with
  | (chans, carry, exitKind) =>
      ({ s1 with channels := chans, playback_sample := carry.playback_sample,
                 declick := carry.declick, declick_offs := carry.declick_offs },
       ms, carry.effects, exitKind = LoopExit.aborted)

/-- The audio section of `run` (lines 289-382): nothing with no channels; a
fade-out (gain still away from a zero target) forces disk monitoring and a
required result, otherwise `_declick_offs` is reset; then either the
advance-only branch or the per-channel read loop. -/
def runAudioSection (env : Env) (a : RunArgs) (tg : ℚ) (still : Bool)
    (dstc : ℕ) (s : DRState) : DRState × MonitorState × List Effect × Bool :=
  if s.channels = [] then (s, env.monitoring, [], false)
  else if s.declick.g ≠ tg ∧ tg = 0 then
    (if still || env.no_disk_output then
      runAdvanceOnly env a { env.monitoring with disk := true } still dstc s
    else runChannelsPart env a tg dstc { env.monitoring with disk := true } s)
  else
    (if ¬ a.result_required ∨ ¬ env.monitoring.disk ∨ still = true ∨
        env.no_disk_output then
      runAdvanceOnly env a env.monitoring still dstc { s with declick_offs := 0 }
    else
      runChannelsPart env a tg dstc env.monitoring { s with declick_offs := 0 })

/-- The MIDI section of `run` (lines 386-399): with a MIDI destination
buffer and a MIDI ring, pull events from the ring when monitoring disk and
not still locating. -/
def runMidiSection (env : Env) (a : RunArgs) (ms : MonitorState) (still : Bool)
    (s2 : DRState) : DRState × List Effect :=
  match s2.midi_buf with
  | some mb =>
      if env.n_midi_buffers ≠ 0 then
        if ms.disk ∧ still = false then
          match get_midi_playback env mb a.start_sample a.end_sample ms
              env.no_disk_output with
          | (mb2, eff, add) =>
              ({ s2 with midi_buf := some mb2,
                         samples_read_from_ringbuffer :=
                           s2.samples_read_from_ringbuffer + add },
               eff)
        else (s2, [])
      else (s2, [])
  | none => (s2, [])

/-- The cursor / butler-demand epilogue of `run` (lines 401-479), reached
only when not still locating: move `playback_sample` by the consumed count
and recompute `_need_butler` from the audio ring's free space (chunk-based,
or half the buffer when slaved) and the MIDI flow counters (wrap-aware:
a reader ahead of the writer forces a butler wakeup). -/
def runCursorUpdate (env : Env) (a : RunArgs) (dstc : ℕ) (s3 : DRState) :
    DRState :=
  { s3 with
      playback_sample :=
        if a.speed < 0 then s3.playback_sample - dstc
        else s3.playback_sample + dstc,
      need_butler :=
        (env.has_audio_playlist &&
          (match s3.channels with
           | [] => false
           | c0 :: _ =>
               if env.slaved then decide (c0.size / 2 ≤ c0.write_space)
               else decide (env.chunk_samples ≤ (c0.write_space : ℤ)))) ||
        (env.has_midi_playlist &&
          (if s3.samples_read_from_ringbuffer ≤ s3.samples_written_to_ringbuffer
           then decide (((s3.samples_written_to_ringbuffer -
                    s3.samples_read_from_ringbuffer : ℕ) + dstc : ℤ) <
                  midi_readahead)
           else true)) }

/-- The body of `run` from the target-gain computation on (lines 265-482),
after the immediate-declick adjustment has been applied to `s`: the stopped
early-out, then audio, then MIDI, then — unless the underrun branch
returned or a locate is still pending — the cursor update. -/
def runBody2 (env : Env) (a : RunArgs) (s : DRState) : DRState × List Effect :=
  if a.speed = 0 ∧ env.monitoring.disk = true ∧ env.monitoring.input = false ∧
      s.declick.g = runTargetGain env a then (s, [])
  else
    match runAudioSection env a (runTargetGain env a)
        (env.global_locate_pending || s.pending_overwrite)
        (if a.speed = 0 then 0 else a.nframes) s with
    | (s2, ms, effA, aborted) =>
      if aborted then (s2, effA)
      else
        match runMidiSection env a ms
            (env.global_locate_pending || s.pending_overwrite) s2 with
        | (s3, effM) =>
            if env.global_locate_pending || s.pending_overwrite then
              (s3, effA ++ effM)
            else
              (runCursorUpdate env a (if a.speed = 0 then 0 else a.nframes) s3,
               effA ++ effM)

/-- Lines 265-269 of `run`: when transport fades are disabled the declick
gain jumps straight to the target before the body runs. -/
def runBody (env : Env) (a : RunArgs) (s0 : DRState) : DRState × List Effect :=
  if ¬ env.use_transport_fades then
    runBody2 env a { s0 with declick := { s0.declick with g := runTargetGain env a } }
  else runBody2 env a s0

/-- `DiskReader::run` (lines 242-482).  The pending-active transition is
honoured first: an active reader with a pending deactivation flips
`_active` and returns; an inactive reader with no pending activation
returns untouched. -/
def run (env : Env) (a : RunArgs) (s : DRState) : DRState × List Effect :=
  if s.active then
    if ¬ s.pending_active then ({ s with active := false }, [])
    else runBody env a s
  else
    if s.pending_active then runBody env a { s with active := true }
    else (s, [])

/-- Number of `Underrun` signals in an effect trace. -/
def countUnderruns : List Effect → ℕ
  | [] => 0
  | Effect.underrun :: es => countUnderruns es + 1
  | _ :: es => countUnderruns es

/-! ## Concrete sessions, readers and calls used by witnesses and
counterexamples -/

/-- A standard session environment: not loading, forward unit speed, default
chunk, 32-bit native samples, fades on, one audio output buffer, monitoring
disk only, playlist reads succeed, no loop. -/
def stdEnv : Env where
  loading := false
  transport_speed := 1
  chunk_samples := 65536
  bits_per_sample := 32
  use_transport_fades := true
  global_locate_pending := false
  no_disk_output := false
  slaved := false
  has_audio_playlist := true
  audio_read_ok := fun _ _ => true
  has_midi_playlist := false
  midi_read_ok := fun _ _ => true
  midi_events := fun _ _ => []
  loop_location := none
  monitoring := { disk := true, input := false }
  n_audio_buffers := 1
  n_midi_buffers := 0

/-- `stdEnv` with the session marked as loading. -/
def loadingEnv : Env := { stdEnv with loading := true }

/-- A reader about to be seeked: one audio channel with a freshly reset
131074-sample ring, playing at sample 999. -/
def seekState : DRState where
  active := true
  pending_active := true
  pending_overwrite := false
  overwrite_sample := 0
  playback_sample := 999
  file_sample_audio := 999
  file_sample_midi := 999
  channels := [{ size := 131074, read_idx := 0, write_idx := 100 }]
  midi_buf := none
  playlist_trackers := []
  samples_read_from_ringbuffer := 0
  samples_written_to_ringbuffer := 0
  need_butler := false
  declick := { a := 455 / 4800, g := 1 }
  declick_offs := 0

/-- A rolling reader whose single ring holds only 100 samples. -/
def shortState : DRState :=
  { seekState with
      playback_sample := 0
      channels := [{ size := 1024, read_idx := 0, write_idx := 100 }] }

/-- A `run` call for 256 frames at unit speed from sample 0. -/
def runArgs : RunArgs where
  start_sample := 0
  end_sample := 256
  speed := 1
  nframes := 256
  result_required := true

/-! ## Claim C4 — Beats normalization -/

/-- Claim C4 (code bug): `Beats (0, -1)` — one tick before zero, as produced
for example by `Beats::tick ()` subtraction from zero — normalizes to
`(-1, -1919)`, which represents `-3839` ticks, not the `-1` ticks of the
input: `normalize` does not preserve the represented tick value.  (The other
two conjuncts of the claim do hold of this result: `|t'| < 1920` and the
signs agree.) -/
theorem C4_normalize_changes_value :
    Beats.mk 0 (-1) = (-1, -1919) ∧
    Beats.toTicks (Beats.mk 0 (-1)) = -3839 ∧
    Beats.toTicks (Beats.mk 0 (-1)) ≠ 0 * PPQN + (-1) := by
  have h : Beats.mk 0 (-1) = (-1, -1919) := by
    rw [Beats.mk, Beats.normalize, fixNegTicks, fixNegTicks, reduceTicks]
    norm_num [PPQN]
  refine ⟨h, ?_, ?_⟩ <;> rw [h] <;> simp [Beats.toTicks, PPQN]

/-! ## Claim C6 — Beats construction from a real number -/

/-- Claim C6 (counterexample): at `x = 1/1024` (exactly representable as a
double, with `frac * PPQN = 1.875` exact), the constructor stores
`ticks = 1`, while `round (frac * PPQN) = 2`: the ticks field is not the
rounding of `frac * PPQN`. -/
theorem C6_fromReal_not_rounded :
    Beats.fromReal (1 / 1024) = (0, 1) ∧
    round (((1 : ℚ) / 1024 - 0) * (PPQN : ℚ)) = 2 ∧
    ((1 : ℤ)) ≠ 2 := by
  refine ⟨?_, ?_, by norm_num⟩
  · rw [Beats.fromReal, ratTrunc, ratTrunc]
    norm_num [PPQN]
  · rw [round_eq]
    norm_num [PPQN]

/-- Claim C6 (amended): constructing a Beats value from a nonnegative real
`x` sets the beats field to the integer part `⌊x⌋` and the ticks field to
the *truncation* `⌊frac * PPQN⌋` of the scaled fractional part (not its
rounding); equivalently the represented tick count is `⌊x * PPQN⌋`.
(For negative `x` both parts truncate toward zero instead.) -/
theorem C6_fromReal_truncates (x : ℚ) (hx : 0 ≤ x) :
    (Beats.fromReal x).1 = ⌊x⌋ ∧
    (Beats.fromReal x).2 = ⌊(x - ⌊x⌋) * (PPQN : ℚ)⌋ ∧
    (Beats.fromReal x).1 * PPQN + (Beats.fromReal x).2 = ⌊x * (PPQN : ℚ)⌋ := by
  have hfl : ratTrunc x = ⌊x⌋ := if_pos hx
  have hfrac : (0 : ℚ) ≤ x - ⌊x⌋ := sub_nonneg.mpr (Int.floor_le x)
  have h2 : ratTrunc ((x - ((⌊x⌋ : ℤ) : ℚ)) * (PPQN : ℚ)) =
      ⌊(x - ⌊x⌋) * (PPQN : ℚ)⌋ :=
    if_pos (mul_nonneg hfrac (by norm_num [PPQN]))
  refine ⟨hfl, ?_, ?_⟩
  · show ratTrunc ((x - (ratTrunc x : ℚ)) * (PPQN : ℚ)) = _
    rw [hfl, h2]
  · show ratTrunc x * PPQN + ratTrunc ((x - (ratTrunc x : ℚ)) * (PPQN : ℚ)) = _
    rw [hfl, h2]
    have : (x - ⌊x⌋) * (PPQN : ℚ) = x * (PPQN : ℚ) - ((⌊x⌋ * PPQN : ℤ) : ℚ) := by
      push_cast
      ring
    rw [this, Int.floor_sub_int]
    ring

/-- Witness for C6_fromReal_truncates at `x = 1/1024`. -/
theorem C6_fromReal_truncates_witness :
    (0 : ℚ) ≤ 1 / 1024 ∧
    (Beats.fromReal (1 / 1024)).1 = ⌊(1 / 1024 : ℚ)⌋ ∧
    (Beats.fromReal (1 / 1024)).2 =
      ⌊((1 / 1024 : ℚ) - ⌊(1 / 1024 : ℚ)⌋) * (PPQN : ℚ)⌋ ∧
    (Beats.fromReal (1 / 1024)).1 * PPQN + (Beats.fromReal (1 / 1024)).2 =
      ⌊(1 / 1024 : ℚ) * (PPQN : ℚ)⌋ :=
  ⟨by norm_num, C6_fromReal_truncates (1 / 1024) (by norm_num)⟩

/-! ## Claim C8 — refill read-size optimisation -/

/-- Claim C8 (confirmed): for every available byte count, the byte size
`refill_audio` chooses for the disk read lies in [256 KiB, 4 MiB] and is a
multiple of 16384. -/
theorem C8_byte_size_bounds (total_bytes : ℕ) :
    262144 ≤ byte_size_for_read total_bytes ∧
    byte_size_for_read total_bytes ≤ 4194304 ∧
    16384 ∣ byte_size_for_read total_bytes := by
  unfold byte_size_for_read
  set b := max (256 * 1024) (min (4 * 1048576) total_bytes) with hb
  have h1 : 262144 ≤ b := le_max_left _ _
  have h2 : b ≤ 4194304 := max_le (by norm_num) (min_le_left _ _)
  refine ⟨?_, ?_, dvd_mul_left _ _⟩
  · have h16 : 16 ≤ b / 16384 :=
      (Nat.le_div_iff_mul_le (by norm_num)).mpr (by omega)
    calc 262144 = 16 * 16384 := by norm_num
    _ ≤ b / 16384 * 16384 := Nat.mul_le_mul_right _ h16
  · exact le_trans (Nat.div_mul_le_self b 16384) h2

/-- Witness for C8_byte_size_bounds at the byte count of the C3 seek
scenario. -/
theorem C8_byte_size_bounds_witness :
    262144 ≤ byte_size_for_read 262148 ∧
    byte_size_for_read 262148 ≤ 4194304 ∧
    16384 ∣ byte_size_for_read 262148 :=
  C8_byte_size_bounds 262148

/-! ## Claim C9 — run with inactive reader -/

/-- Claim C9 (confirmed): an inactive reader with no pending activation
returns from `run` with its state — output buffers, `playback_sample`, all
ring read pointers and `_need_butler` included — completely untouched and an
empty effect trace. -/
theorem C9_run_inactive (env : Env) (a : RunArgs) (s : DRState)
    (h1 : s.active = false) (h2 : s.pending_active = false) :
    run env a s = (s, []) := by
  simp [run, h1, h2]

/-- Witness for C9_run_inactive: a concrete inactive reader. -/
theorem C9_run_inactive_witness :
    ({ shortState with active := false, pending_active := false } : DRState).active
      = false ∧
    ({ shortState with active := false, pending_active := false } : DRState).pending_active
      = false ∧
    run stdEnv runArgs { shortState with active := false, pending_active := false } =
      ({ shortState with active := false, pending_active := false }, []) :=
  ⟨rfl, rfl, C9_run_inactive stdEnv runArgs _ rfl rfl⟩

/-! ## Claim C10 — refill_audio while loading -/

/-- Claim C10 (confirmed): while the session reports loading, `refill_audio`
returns 0 with the reader state — rings and `file_sample[AUDIO]` included —
unchanged. -/
theorem C10_refill_audio_loading (env : Env) (s : DRState) (fill_level : ℤ)
    (h : env.loading = true) :
    refill_audio env s fill_level = (0, s) := by
  simp [refill_audio, h]

/-- Witness for C10_refill_audio_loading. -/
theorem C10_refill_audio_loading_witness :
    loadingEnv.loading = true ∧
    refill_audio loadingEnv seekState 0 = (0, seekState) :=
  ⟨rfl, C10_refill_audio_loading loadingEnv seekState 0 rfl⟩

/-! ## Claim C2 — deferral in ButlerWait -/

/-- A default `locate` payload (the `locate ()` constructor). -/
def locate0 : LocateArgs where
  target := 0
  with_roll := false
  with_flush := false
  with_loop := false
  force := false

/-- Claim C2 (confirmed): every `start` or `stop` delivered in `ButlerWait`
is appended to the deferred queue (FIFO) with no action and no state change;
and on leaving `ButlerWait` the queue is replayed before new events are
seen, so a deferred `start` after `butler_done` in a non-locate
`ButlerWait` leaves the machine `Rolling` (having performed
`butler_completed_transport_work` and then `start_playback`), with the
queue drained. -/
theorem C2_butler_wait_defers :
    (∀ (sr : Bool) (m : TMachine) (e : TEvent),
        m.state = TState.ButlerWait →
        (e = TEvent.start ∨ ∃ ab cl, e = TEvent.stop ab cl) →
        step sr m e = ({ m with deferred := m.deferred ++ [e] }, [])) ∧
    (∀ (sr : Bool) (m : TMachine),
        m.state = TState.ButlerWait →
        m.stopped_to_locate = false →
        m.deferred = [TEvent.start] →
        (step sr m TEvent.butler_done).1.state = TState.Rolling ∧
        (step sr m TEvent.butler_done).2 =
          [TAction.butler_completed_transport_work, TAction.start_playback] ∧
        (step sr m TEvent.butler_done).1.deferred = []) := by
  constructor
  · rintro sr m e hs (rfl | ⟨ab, cl, rfl⟩) <;> simp [step, defersEvent, hs]
  · intro sr m hs hl hd
    refine ⟨?_, ?_, ?_⟩ <;>
      simp [step, defersEvent, transition, drainDeferred, hs, hl, hd]

/-- Witness for C2_butler_wait_defers: a concrete waiting machine with a
deferred `start`. -/
theorem C2_butler_wait_defers_witness :
    (step true ⟨TState.ButlerWait, false, locate0, []⟩ TEvent.start =
      (⟨TState.ButlerWait, false, locate0, [TEvent.start]⟩, [])) ∧
    (step true ⟨TState.ButlerWait, false, locate0, [TEvent.start]⟩
        TEvent.butler_done).1.state = TState.Rolling :=
  ⟨by
    have h := C2_butler_wait_defers.1 true ⟨TState.ButlerWait, false, locate0, []⟩
      TEvent.start rfl (Or.inl rfl)
    simpa using h,
   (C2_butler_wait_defers.2 true ⟨TState.ButlerWait, false, locate0, [TEvent.start]⟩
      rfl rfl rfl).1⟩

/-! ## Claim C5 — locate while rolling -/

/-- Claim C5 (confirmed): a `locate` received while `Rolling` moves the
machine to `DeclickOut` through `mark_for_locate` — setting
`_stopped_to_locate`, latching `_last_locate` and invoking
`stop_playback (stop ())` — and the following `declick_done` moves it to
`Locating` with action `exit_declick`. -/
theorem C5_locate_while_rolling (sr : Bool) (m : TMachine) (l : LocateArgs)
    (hs : m.state = TState.Rolling) (hd : m.deferred = []) :
    (step sr m (TEvent.locate l)).1.state = TState.DeclickOut ∧
    (step sr m (TEvent.locate l)).1.stopped_to_locate = true ∧
    (step sr m (TEvent.locate l)).1.last_locate = l ∧
    (step sr m (TEvent.locate l)).2 = [TAction.stop_playback false false] ∧
    (step sr (step sr m (TEvent.locate l)).1 TEvent.declick_done).1.state =
      TState.Locating ∧
    (step sr (step sr m (TEvent.locate l)).1 TEvent.declick_done).2 =
      [TAction.exit_declick] := by
  refine ⟨?_, ?_, ?_, ?_, ?_, ?_⟩ <;>
    simp [step, defersEvent, transition, drainDeferred, hs, hd]

/-- Witness for C5_locate_while_rolling: a concrete rolling machine and a
concrete locate request. -/
theorem C5_locate_while_rolling_witness :
    (⟨TState.Rolling, false, locate0, []⟩ : TMachine).state = TState.Rolling ∧
    (step true ⟨TState.Rolling, false, locate0, []⟩
        (TEvent.locate ⟨44100, true, false, false, false⟩)).1.state =
      TState.DeclickOut ∧
    (step true ⟨TState.Rolling, false, locate0, []⟩
        (TEvent.locate ⟨44100, true, false, false, false⟩)).1.last_locate =
      ⟨44100, true, false, false, false⟩ :=
  ⟨rfl,
   (C5_locate_while_rolling true ⟨TState.Rolling, false, locate0, []⟩
      ⟨44100, true, false, false, false⟩ rfl rfl).1,
   (C5_locate_while_rolling true ⟨TState.Rolling, false, locate0, []⟩
      ⟨44100, true, false, false, false⟩ rfl rfl).2.2.1⟩

/-! ## Claim C7 — declick monotonicity and convergence -/

/-- The block loop never increases a nonnegative gain ramping toward 0 and
keeps it nonnegative, for any buffer contents. -/
theorem applyGainBlocks_gain_le (a : ℚ) (ha0 : 0 ≤ a) (ha1 : a ≤ 1) :
    ∀ (fuel : ℕ) (buf : List ℚ) (g : ℚ), 0 ≤ g →
      (applyGainBlocks a 0 fuel buf g).2 ≤ g ∧
        0 ≤ (applyGainBlocks a 0 fuel buf g).2 := by
  intro fuel
  induction fuel with
  | zero => intro buf g hg; exact ⟨le_refl g, hg⟩
  | succ n ih =>
      intro buf g hg
      match buf with
      | [] => exact ⟨le_refl g, hg⟩
      | x :: xs =>
          have hstep : (applyGainBlocks a 0 (n + 1) (x :: xs) g).2 =
              (applyGainBlocks a 0 n ((x :: xs).drop (min MAX_NPROC (x :: xs).length))
                (g + a * (0 - g))).2 := rfl
          have hg' : g + a * (0 - g) = g * (1 - a) := by ring
          have h0 : 0 ≤ g * (1 - a) := mul_nonneg hg (by linarith)
          have hle : g * (1 - a) ≤ g := by nlinarith
          have := ih ((x :: xs).drop (min MAX_NPROC (x :: xs).length)) (g * (1 - a)) h0
          rw [hstep, hg']
          exact ⟨le_trans this.1 hle, this.2⟩

/-- A single `apply_gain` call toward target 0 never increases a
nonnegative gain and keeps it nonnegative. -/
theorem apply_gain_monotone (amp : DeclickAmp) (buf : List ℚ)
    (ha0 : 0 ≤ amp.a) (ha1 : amp.a ≤ 1) (hg : 0 ≤ amp.g) :
    (amp.apply_gain buf 0).2.g ≤ amp.g ∧ 0 ≤ (amp.apply_gain buf 0).2.g := by
  unfold DeclickAmp.apply_gain
  by_cases h0 : buf.length = 0
  · rw [if_pos h0]
    exact ⟨le_refl _, hg⟩
  · rw [if_neg h0]
    by_cases h1 : amp.g = 0
    · rw [if_pos h1]
      exact ⟨le_refl _, hg⟩
    · rw [if_neg h1]
      have hb := applyGainBlocks_gain_le amp.a ha0 ha1 buf.length buf amp.g hg
      by_cases h2 : |(applyGainBlocks amp.a 0 buf.length buf amp.g).2 - 0| <
          GAIN_COEFF_DELTA
      · rw [if_pos h2]
        exact ⟨hg, le_refl 0⟩
      · rw [if_neg h2]
        exact hb

/-- The gain evolution of one 16-sample zero-buffer call: unchanged at the
target, otherwise one block update followed by the snap test. -/
theorem apply_gain_sixteen (amp : DeclickAmp) :
    (amp.apply_gain (List.replicate 16 0) 0).2 =
      if amp.g = 0 then amp
      else if |amp.g * (1 - amp.a)| < GAIN_COEFF_DELTA then { amp with g := 0 }
      else { amp with g := amp.g * (1 - amp.a) } := by
  have hblocks : (applyGainBlocks amp.a 0 16 (List.replicate 16 (0 : ℚ)) amp.g).2 =
      amp.g + amp.a * (0 - amp.g) := rfl
  have harith : amp.g + amp.a * (0 - amp.g) = amp.g * (1 - amp.a) := by ring
  unfold DeclickAmp.apply_gain
  rw [List.length_replicate, if_neg (by norm_num), hblocks, harith]
  by_cases h1 : amp.g = 0
  · rw [if_pos h1, if_pos h1]
  · rw [if_neg h1, if_neg h1]
    by_cases h2 : |amp.g * (1 - amp.a) - 0| < GAIN_COEFF_DELTA
    · rw [if_pos h2, if_pos (by simpa using h2)]
    · rw [if_neg h2, if_neg (by simpa using h2)]

/-- Invariant of the iterated declick fade from gain 1: the coefficient
field is preserved and the gain is either exactly 0 (snapped) or exactly
`(1 - a) ^ k` and still at least the snap threshold. -/
theorem declickIter_spec (a : ℚ) (ha1 : a ≤ 1) (k : ℕ) :
    (declickIter ⟨a, 1⟩ k).a = a ∧
      ((declickIter ⟨a, 1⟩ k).g = 0 ∨
        ((declickIter ⟨a, 1⟩ k).g = (1 - a) ^ k ∧
          GAIN_COEFF_DELTA ≤ (1 - a) ^ k)) := by
  induction k with
  | zero =>
      refine ⟨rfl, Or.inr ⟨rfl, ?_⟩⟩
      norm_num [GAIN_COEFF_DELTA]
  | succ k ih =>
      obtain ⟨iha, ihg⟩ := ih
      have hstep : declickIter ⟨a, 1⟩ (k + 1) =
          ((declickIter ⟨a, 1⟩ k).apply_gain (List.replicate 16 0) 0).2 := rfl
      rcases ihg with hg0 | ⟨hgk, hge⟩
      · rw [hstep, apply_gain_sixteen, if_pos hg0]
        exact ⟨iha, Or.inl hg0⟩
      · have hpow : (0 : ℚ) < (1 - a) ^ k := by
          have hd : (0 : ℚ) < GAIN_COEFF_DELTA := by norm_num [GAIN_COEFF_DELTA]
          linarith
        have hne : (declickIter ⟨a, 1⟩ k).g ≠ 0 := by
          rw [hgk]; exact ne_of_gt hpow
        rw [hstep, apply_gain_sixteen, if_neg hne, iha, hgk]
        by_cases hsnap : |(1 - a) ^ k * (1 - a)| < GAIN_COEFF_DELTA
        · rw [if_pos hsnap]
          exact ⟨rfl, Or.inl rfl⟩
        · rw [if_neg hsnap]
          have hnn : (0 : ℚ) ≤ (1 - a) ^ k * (1 - a) :=
            mul_nonneg (le_of_lt hpow) (by linarith)
          refine ⟨rfl, Or.inr ⟨?_, ?_⟩⟩
          · show (1 - a) ^ k * (1 - a) = (1 - a) ^ (k + 1)
            exact (pow_succ _ _).symm
          · rw [pow_succ]
            have hle := le_of_not_lt hsnap
            rwa [abs_of_nonneg hnn] at hle

/-- Claim C7 (confirmed): (1) toward target 0, every `apply_gain` call maps
a nonnegative gain to a smaller-or-equal nonnegative gain, for any buffer —
so the gain sequence of repeated calls from `g = 1` is non-increasing; and
(2) fading from `g = 1` with `a = 4550 / sample_rate`, the gain reaches
exactly 0 (by the `1e-5` snap) within `17 · c` calls of 16 zero samples,
i.e. within `272 · c` samples, where `c = (sample_rate + 4549) / 4550 =
⌈sample_rate / 4550⌉`: the claimed bound `ceil (sample_rate / 4550) · k`
holds with the small constant `k = 272`. -/
theorem C7_declick_monotone_convergent :
    (∀ (amp : DeclickAmp) (buf : List ℚ),
        0 ≤ amp.a → amp.a ≤ 1 → 0 ≤ amp.g →
        (amp.apply_gain buf 0).2.g ≤ amp.g ∧ 0 ≤ (amp.apply_gain buf 0).2.g) ∧
    (∀ sample_rate : ℕ, 4550 ≤ sample_rate →
        (declickIter ⟨4550 / (sample_rate : ℚ), 1⟩
            (17 * ((sample_rate + 4549) / 4550))).g = 0 ∧
        16 * (17 * ((sample_rate + 4549) / 4550)) =
          272 * ((sample_rate + 4549) / 4550)) := by
  constructor
  · intro amp buf ha0 ha1 hg
    exact apply_gain_monotone amp buf ha0 ha1 hg
  · intro sr hsr
    have hsrq : (4550 : ℚ) ≤ (sr : ℕ) := by exact_mod_cast hsr
    have hsrpos : (0 : ℚ) < (sr : ℕ) := by linarith
    have ha0 : (0 : ℚ) ≤ 4550 / (sr : ℕ) := by positivity
    have ha1 : (4550 : ℚ) / (sr : ℕ) ≤ 1 := (div_le_one hsrpos).mpr hsrq
    set a : ℚ := 4550 / (sr : ℕ) with hadef
    set c : ℕ := (sr + 4549) / 4550 with hcdef
    have hc4550 : sr ≤ c * 4550 := by
      have hdm := Nat.div_add_mod (sr + 4549) 4550
      have hmlt : (sr + 4549) % 4550 < 4550 := Nat.mod_lt _ (by norm_num)
      omega
    have hca : (1 : ℚ) ≤ (c : ℕ) * a := by
      rw [hadef, mul_div_assoc']
      rw [le_div_iff₀ hsrpos]
      have : ((sr : ℕ) : ℚ) ≤ ((c * 4550 : ℕ) : ℚ) := by exact_mod_cast hc4550
      push_cast at this ⊢
      linarith
    have h1a : (0 : ℚ) ≤ 1 - a := by linarith
    have h1 : (1 - a) ≤ 1 / (1 + a) := by
      rw [le_div_iff₀ (by linarith : (0 : ℚ) < 1 + a)]
      nlinarith
    have h2 : (1 - a) ^ c ≤ (1 / (1 + a)) ^ c := pow_le_pow_left₀ h1a h1 c
    have h3 : (1 : ℚ) + (c : ℕ) * a ≤ (1 + a) ^ c :=
      one_add_mul_le_pow (by linarith : (-2 : ℚ) ≤ a) c
    have h4 : (2 : ℚ) ≤ (1 + a) ^ c := by linarith
    have h6 : (1 : ℚ) / (1 + a) ^ c ≤ 1 / 2 :=
      one_div_le_one_div_of_le (by norm_num) h4
    have h7 : (1 - a) ^ c ≤ 1 / 2 := by
      calc (1 - a) ^ c ≤ (1 / (1 + a)) ^ c := h2
      _ = 1 / (1 + a) ^ c := one_div_pow _ _
      _ ≤ 1 / 2 := h6
    have h9 : ((1 - a) ^ c) ^ 17 ≤ (1 / 2 : ℚ) ^ 17 :=
      pow_le_pow_left₀ (pow_nonneg h1a c) h7 17
    have hkey : (1 - a) ^ (17 * c) < GAIN_COEFF_DELTA := by
      rw [mul_comm, pow_mul]
      calc ((1 - a) ^ c) ^ 17 ≤ (1 / 2 : ℚ) ^ 17 := h9
      _ < GAIN_COEFF_DELTA := by norm_num [GAIN_COEFF_DELTA]
    have hspec := declickIter_spec a ha1 (17 * c)
    refine ⟨?_, by ring⟩
    rcases hspec.2 with h | ⟨_, hge⟩
    · exact h
    · exact absurd hkey (not_lt.mpr hge)

/-- Witness for C7_declick_monotone_convergent: the monotone part at
`a = 1/2`, `g = 1` on a two-sample buffer, and the convergence part at a
48 kHz sample rate. -/
theorem C7_declick_witness :
    ((({ a := 1 / 2, g := 1 } : DeclickAmp).apply_gain [0, 0] 0).2.g ≤
        ({ a := 1 / 2, g := 1 } : DeclickAmp).g ∧
      0 ≤ (({ a := 1 / 2, g := 1 } : DeclickAmp).apply_gain [0, 0] 0).2.g) ∧
    ((declickIter ⟨4550 / ((48000 : ℕ) : ℚ), 1⟩
        (17 * (((48000 : ℕ) + 4549) / 4550))).g = 0 ∧
      16 * (17 * (((48000 : ℕ) + 4549) / 4550)) =
        272 * (((48000 : ℕ) + 4549) / 4550)) :=
  ⟨C7_declick_monotone_convergent.1 { a := 1 / 2, g := 1 } [0, 0]
      (by norm_num) (by norm_num) (by norm_num),
   C7_declick_monotone_convergent.2 48000 (by norm_num)⟩

/-! ## Claim C3 — seek -/

/-- `refill_audio` touches only the rings and `file_sample[AUDIO]`:
`playback_sample` and `_pending_overwrite` survive it. -/
theorem refill_audio_preserves (env : Env) (s : DRState) (fl : ℤ) :
    (refill_audio env s fl).2.playback_sample = s.playback_sample ∧
    (refill_audio env s fl).2.pending_overwrite = s.pending_overwrite := by
  unfold refill_audio
  repeat' split
  all_goals exact ⟨rfl, rfl⟩

/-- `midi_read` touches only the MIDI ring and the written-samples counter. -/
theorem midi_read_preserves (env : Env) (s : DRState) (start dur : ℤ)
    (rev : Bool) :
    (midi_read env s start dur rev).1.playback_sample = s.playback_sample ∧
    (midi_read env s start dur rev).1.pending_overwrite = s.pending_overwrite := by
  unfold midi_read
  dsimp only
  repeat' split
  all_goals exact ⟨rfl, rfl⟩

/-- `refill_midi` preserves `playback_sample` and `_pending_overwrite`. -/
theorem refill_midi_preserves (env : Env) (s : DRState) :
    (refill_midi env s).2.playback_sample = s.playback_sample ∧
    (refill_midi env s).2.pending_overwrite = s.pending_overwrite := by
  unfold refill_midi
  repeat' split
  all_goals
    first
    | exact ⟨rfl, rfl⟩
    | (rename_i s1 ffm ok heq hok
       have hp := midi_read_preserves env s s.file_sample_midi (midiToRead s) false
       rw [heq] at hp
       exact hp)

/-- One refill pass preserves `playback_sample` and `_pending_overwrite`. -/
theorem do_refill_preserves (env : Env) (s : DRState) (pf : Bool) :
    (do_refill_with_alloc env s pf).2.playback_sample = s.playback_sample ∧
    (do_refill_with_alloc env s pf).2.pending_overwrite = s.pending_overwrite := by
  have ha := refill_audio_preserves env s (if pf then env.chunk_samples else 0)
  have hm := refill_midi_preserves env
    (refill_audio env s (if pf then env.chunk_samples else 0)).2
  have hd : do_refill_with_alloc env s pf =
      (if (refill_audio env s (if pf then env.chunk_samples else 0)).1 ≠ 0 then
        refill_audio env s (if pf then env.chunk_samples else 0)
      else
        refill_midi env
          (refill_audio env s (if pf then env.chunk_samples else 0)).2) := rfl
  rw [hd]
  by_cases h : (refill_audio env s (if pf then env.chunk_samples else 0)).1 ≠ 0
  · rw [if_pos h]
    exact ha
  · rw [if_neg h]
    exact ⟨hm.1.trans ha.1, hm.2.trans ha.2⟩

/-- The complete-refill loop preserves `playback_sample` and
`_pending_overwrite`. -/
theorem refillLoop_preserves (env : Env) :
    ∀ (fuel : ℕ) (s : DRState),
      (refillLoop env fuel s).2.playback_sample = s.playback_sample ∧
      (refillLoop env fuel s).2.pending_overwrite = s.pending_overwrite := by
  intro fuel
  induction fuel with
  | zero => intro s; exact ⟨rfl, rfl⟩
  | succ n ih =>
      intro s
      have hd := do_refill_preserves env s false
      have hstep : refillLoop env (n + 1) s =
          (if (do_refill_with_alloc env s false).1 > 0 then
            refillLoop env n (do_refill_with_alloc env s false).2
          else do_refill_with_alloc env s false) := rfl
      rw [hstep]
      split
      · have h2 := ih (do_refill_with_alloc env s false).2
        exact ⟨h2.1.trans hd.1, h2.2.trans hd.2⟩
      · exact hd

/-- Claim C3 (amended): after the state-resetting prefix of `seek` —
everything the claim lists — `pending_overwrite` is cleared, every audio
ring is reset, the MIDI ring is reset, the note trackers are reset when
nothing was consumed from the ring since the last seek, and
`playback_sample`, `file_sample[AUDIO]` and `file_sample[MIDI]` all equal
the target.  `seek` itself is exactly that prefix followed by the refill
loop, which *advances* `file_sample` by whatever it reads; what still holds
on return from `seek` is `playback_sample = target` and
`pending_overwrite = false`. -/
theorem C3_seek_resets (env : Env) (s : DRState) (target : ℤ)
    (complete_refill : Bool) :
    (seekStateReset s target).pending_overwrite = false ∧
    (seekStateReset s target).channels = s.channels.map Ring.reset ∧
    (∀ r ∈ (seekStateReset s target).channels,
        r.read_idx = 0 ∧ r.write_idx = 0) ∧
    (∀ m, (seekStateReset s target).midi_buf = some m → m.events = []) ∧
    (s.samples_read_from_ringbuffer = 0 →
      (∀ m, (seekStateReset s target).midi_buf = some m → m.tracker = []) ∧
      (seekStateReset s target).playlist_trackers = []) ∧
    (seekStateReset s target).samples_read_from_ringbuffer = 0 ∧
    (seekStateReset s target).samples_written_to_ringbuffer = 0 ∧
    (seekStateReset s target).playback_sample = target ∧
    (seekStateReset s target).file_sample_audio = target ∧
    (seekStateReset s target).file_sample_midi = target ∧
    seek env s target complete_refill =
      (if complete_refill then
        refillLoop env
          ((match (seekStateReset s target).channels with
            | [] => 0
            | c :: _ => c.size) + 1) (seekStateReset s target)
       else do_refill_with_alloc env (seekStateReset s target) true) ∧
    (seek env s target complete_refill).2.playback_sample = target ∧
    (seek env s target complete_refill).2.pending_overwrite = false := by
  have hpo : (seekStateReset s target).pending_overwrite = false := by
    by_cases h : s.samples_read_from_ringbuffer = 0 <;>
      simp [seekStateReset, reset_tracker, h]
  have hchan : (seekStateReset s target).channels = s.channels.map Ring.reset := by
    by_cases h : s.samples_read_from_ringbuffer = 0 <;>
      simp [seekStateReset, reset_tracker, h]
  have hreset : ∀ r ∈ (seekStateReset s target).channels,
      r.read_idx = 0 ∧ r.write_idx = 0 := by
    intro r hr
    rw [hchan] at hr
    obtain ⟨r0, _, rfl⟩ := List.mem_map.mp hr
    exact ⟨rfl, rfl⟩
  have hmidi : ∀ m, (seekStateReset s target).midi_buf = some m →
      m.events = [] := by
    intro m hm
    by_cases h : s.samples_read_from_ringbuffer = 0 <;>
      simp [seekStateReset, reset_tracker, h, Option.map_eq_some'] at hm <;>
      obtain ⟨m0, _, rfl⟩ := hm <;> rfl
  have htrack : s.samples_read_from_ringbuffer = 0 →
      (∀ m, (seekStateReset s target).midi_buf = some m → m.tracker = []) ∧
      (seekStateReset s target).playlist_trackers = [] := by
    intro h
    constructor
    · intro m hm
      simp [seekStateReset, reset_tracker, h, Option.map_eq_some'] at hm
      obtain ⟨m0, _, rfl⟩ := hm
      rfl
    · simp [seekStateReset, reset_tracker, h]
  have hseek : seek env s target complete_refill =
      (if complete_refill then
        refillLoop env
          ((match (seekStateReset s target).channels with
            | [] => 0
            | c :: _ => c.size) + 1) (seekStateReset s target)
       else do_refill_with_alloc env (seekStateReset s target) true) := rfl
  have hfin : (seek env s target complete_refill).2.playback_sample = target ∧
      (seek env s target complete_refill).2.pending_overwrite = false := by
    rw [hseek]
    split
    · have h2 := refillLoop_preserves env
        ((match (seekStateReset s target).channels with
          | [] => 0
          | c :: _ => c.size) + 1) (seekStateReset s target)
      exact ⟨h2.1, h2.2.trans hpo⟩
    · have h2 := do_refill_preserves env (seekStateReset s target) true
      exact ⟨h2.1, h2.2.trans hpo⟩
  exact ⟨hpo, hchan, hreset, hmidi, htrack, rfl, rfl, rfl, rfl, rfl, hseek,
    hfin.1, hfin.2⟩

/-- Witness for C3_seek_resets: the concrete seek of `seekState` to
sample 0 (its tracker-reset condition holds: nothing was consumed). -/
theorem C3_seek_resets_witness :
    (seekStateReset seekState 0).pending_overwrite = false ∧
    (seekStateReset seekState 0).playback_sample = 0 ∧
    (seekStateReset seekState 0).file_sample_audio = 0 ∧
    (seekStateReset seekState 0).playlist_trackers = [] ∧
    (seek stdEnv seekState 0 false).2.playback_sample = 0 ∧
    (seek stdEnv seekState 0 false).2.pending_overwrite = false := by
  obtain ⟨h1, h2, h3, h4, h5, h6, h7, h8, h9, h10, h11, h12, h13⟩ :=
    C3_seek_resets stdEnv seekState 0 false
  exact ⟨h1, h8, h9, (h5 rfl).2, h12, h13⟩

/-- Claim C3 (counterexample): a concrete partial-fill seek to sample 0 on
`seekState` (one empty 131074-sample ring, default chunk, 32-bit files,
a playlist with data): after `seek` returns, `playback_sample = 0` and
`pending_overwrite` is clear, but the refill has already advanced
`file_sample[AUDIO]` to 65536 — it does not equal the target. -/
theorem C3_seek_file_sample_advanced :
    (seek stdEnv seekState 0 false).2.playback_sample = 0 ∧
    (seek stdEnv seekState 0 false).2.pending_overwrite = false ∧
    (seek stdEnv seekState 0 false).2.file_sample_audio = 65536 ∧
    ¬ (seek stdEnv seekState 0 false).2.file_sample_audio = 0 := by
  refine ⟨?_, ?_, ?_, ?_⟩ <;> decide

/-! ## Claim C1 — underrun in run -/

/-- `countUnderruns` distributes over list append. -/
theorem countUnderruns_append (xs ys : List Effect) :
    countUnderruns (xs ++ ys) = countUnderruns xs + countUnderruns ys := by
  induction xs with
  | nil => simp [countUnderruns]
  | cons x xs ih =>
      cases x <;> (simp [countUnderruns, ih]; try omega)

/-- When the cycle's start sample agrees with the playback cursor, the
internal-seek retry is a no-op. -/
theorem chanSeekAdjust_aligned (a : RunArgs) (tg : ℚ) (sr sw : ℕ)
    (all : List Ring) (carry : LoopCarry)
    (h : a.start_sample = carry.playback_sample) :
    chanSeekAdjust a tg sr sw all carry = (all, carry, true) := by
  unfold chanSeekAdjust
  rw [if_neg]
  simp [h]

/-- A channel holding the full consumption: the read commits `dstc` samples
and records them toward the output. -/
theorem chanReadStep_full (a : RunArgs) (tg : ℚ) (dstc n : ℕ) (r : Ring)
    (carry : LoopCarry) (hspeed : a.speed ≠ 0) (hr : dstc ≤ r.read_space) :
    chanReadStep a tg dstc n r carry =
      ((r.read dstc).2,
       { carry with effects := carry.effects ++ [Effect.audioOut n dstc] },
       true) := by
  unfold chanReadStep
  rw [if_pos hspeed]
  simp only [Ring.read, min_eq_left hr]
  rw [if_neg (lt_irrefl dstc)]

/-- A deficient channel: the read commits what the ring held, records it,
and the underrun branch fires. -/
theorem chanReadStep_short (a : RunArgs) (tg : ℚ) (dstc n : ℕ) (r : Ring)
    (carry : LoopCarry) (hspeed : a.speed ≠ 0) (hr : r.read_space < dstc) :
    chanReadStep a tg dstc n r carry =
      ((r.read dstc).2,
       { carry with effects := carry.effects ++
           [Effect.audioOut n r.read_space, Effect.underrun] },
       false) := by
  unfold chanReadStep
  rw [if_pos hspeed]
  simp only [Ring.read, min_eq_right (le_of_lt hr)]
  rw [if_pos hr]

/-- One aligned loop iteration over a channel holding the full consumption
continues with the committed ring appended to the processed prefix. -/
theorem runChanLoop_cons_ok (env : Env) (a : RunArgs) (tg : ℚ) (dstc : ℕ)
    (sr sw fuel : ℕ) (done : List Ring) (r : Ring) (rest : List Ring)
    (n : ℕ) (carry : LoopCarry)
    (hstart : a.start_sample = carry.playback_sample)
    (hspeed : a.speed ≠ 0) (hr : dstc ≤ r.read_space) :
    runChanLoop env a tg dstc sr sw (fuel + 1) done (r :: rest) n carry =
      runChanLoop env a tg dstc sr sw fuel (done ++ [(r.read dstc).2]) rest
        (n + 1)
        { carry with
            declick := carry.declick.gainAfter a.nframes tg,
            effects := carry.effects ++ [Effect.audioOut n dstc] } := by
  show (match chanSeekAdjust a tg sr sw (done ++ r :: rest) carry with
    | (all2, carry1, ok) =>
      if ok = false then (all2, carry1, LoopExit.toMidi)
      else
        match all2.drop done.length with
        | [] => (all2, carry1, LoopExit.normal)
        | r1 :: rest1 =>
          match chanReadStep a tg dstc n r1 carry1 with
          | (r2, carry2, cont) =>
            if cont = false then
              (all2.take done.length ++ r2 :: rest1, carry2, LoopExit.aborted)
            else
              runChanLoop env a tg dstc sr sw fuel
                (all2.take done.length ++ [r2]) rest1 (n + 1)
                { carry2 with
                    declick := carry2.declick.gainAfter a.nframes tg }) = _
  rw [chanSeekAdjust_aligned a tg sr sw (done ++ r :: rest) carry hstart]
  simp only [List.drop_left, List.take_left]
  rw [chanReadStep_full a tg dstc n r carry hspeed hr]
  simp

/-- One aligned loop iteration over a deficient channel: the partial read is
committed, `Underrun` is recorded, and the loop aborts the cycle. -/
theorem runChanLoop_cons_short (env : Env) (a : RunArgs) (tg : ℚ) (dstc : ℕ)
    (sr sw fuel : ℕ) (done : List Ring) (r : Ring) (rest : List Ring)
    (n : ℕ) (carry : LoopCarry)
    (hstart : a.start_sample = carry.playback_sample)
    (hspeed : a.speed ≠ 0) (hr : r.read_space < dstc) :
    runChanLoop env a tg dstc sr sw (fuel + 1) done (r :: rest) n carry =
      (done ++ (r.read dstc).2 :: rest,
       { carry with effects := carry.effects ++
           [Effect.audioOut n r.read_space, Effect.underrun] },
       LoopExit.aborted) := by
  show (match chanSeekAdjust a tg sr sw (done ++ r :: rest) carry with
    | (all2, carry1, ok) =>
      if ok = false then (all2, carry1, LoopExit.toMidi)
      else
        match all2.drop done.length with
        | [] => (all2, carry1, LoopExit.normal)
        | r1 :: rest1 =>
          match chanReadStep a tg dstc n r1 carry1 with
          | (r2, carry2, cont) =>
            if cont = false then
              (all2.take done.length ++ r2 :: rest1, carry2, LoopExit.aborted)
            else
              runChanLoop env a tg dstc sr sw fuel
                (all2.take done.length ++ [r2]) rest1 (n + 1)
                { carry2 with
                    declick := carry2.declick.gainAfter a.nframes tg }) = _
  rw [chanSeekAdjust_aligned a tg sr sw (done ++ r :: rest) carry hstart]
  simp only [List.drop_left, List.take_left]
  rw [chanReadStep_short a tg dstc n r carry hspeed hr]
  simp

/-- The audio loop on an aligned cycle whose first deficient channel is
`bad`: every earlier channel's read pointer advances by the full
consumption, `bad`'s advances by what it held, later channels are
untouched, the loop aborts, `playback_sample` is untouched, and exactly one
`Underrun` is added to the effect trace. -/
theorem runChanLoop_first_deficient (env : Env) (a : RunArgs) (tg : ℚ)
    (dstc sr sw : ℕ) (hspeed : a.speed ≠ 0) :
    ∀ (good : List Ring) (bad : Ring) (after done : List Ring) (n : ℕ)
      (carry : LoopCarry) (fuel : ℕ),
      (good ++ bad :: after).length ≤ fuel →
      (∀ r ∈ good, dstc ≤ r.read_space) →
      bad.read_space < dstc →
      a.start_sample = carry.playback_sample →
      (runChanLoop env a tg dstc sr sw fuel done (good ++ bad :: after) n
          carry).1 =
        done ++ good.map (fun r => (r.read dstc).2) ++ (bad.read dstc).2 :: after ∧
      (runChanLoop env a tg dstc sr sw fuel done (good ++ bad :: after) n
          carry).2.2 = LoopExit.aborted ∧
      (runChanLoop env a tg dstc sr sw fuel done (good ++ bad :: after) n
          carry).2.1.playback_sample = carry.playback_sample ∧
      countUnderruns (runChanLoop env a tg dstc sr sw fuel done
          (good ++ bad :: after) n carry).2.1.effects =
        countUnderruns carry.effects + 1 := by
  intro good
  induction good with
  | nil =>
      intro bad after done n carry fuel hfuel hgood hbad hstart
      match fuel, hfuel with
      | fuel + 1, _ =>
        rw [List.nil_append,
          runChanLoop_cons_short env a tg dstc sr sw fuel done bad after n carry
            hstart hspeed hbad]
        refine ⟨by simp, rfl, rfl, ?_⟩
        simp [countUnderruns_append, countUnderruns]
  | cons g good ih =>
      intro bad after done n carry fuel hfuel hgood hbad hstart
      match fuel, hfuel with
      | fuel + 1, hfuel =>
        rw [List.cons_append,
          runChanLoop_cons_ok env a tg dstc sr sw fuel done g
            (good ++ bad :: after) n carry hstart hspeed
            (hgood g (List.mem_cons_self g good))]
        have hfuel' : (good ++ bad :: after).length ≤ fuel := by
          simp only [List.length_cons, List.cons_append] at hfuel ⊢
          omega
        have hgood' : ∀ r ∈ good, dstc ≤ r.read_space := fun r hr =>
          hgood r (List.mem_cons_of_mem g hr)
        have := ih bad after (done ++ [(g.read dstc).2]) (n + 1)
          { carry with
              declick := carry.declick.gainAfter a.nframes tg,
              effects := carry.effects ++ [Effect.audioOut n dstc] }
          fuel hfuel' hgood' hbad hstart
        refine ⟨?_, this.2.1, this.2.2.1, ?_⟩
        · rw [this.1]
          simp
        · rw [this.2.2.2]
          simp [countUnderruns_append, countUnderruns]

/-- Claim C1 (amended): on an aligned cycle at nonzero speed with disk
monitoring and a required result, when some channel's ring holds fewer than
`nframes` samples, `run` signals `Underrun` exactly once and returns
immediately: `playback_sample`, `_need_butler` and the MIDI flow counter are
untouched (the MIDI section and cursor update never run).  The ring state,
however, *is* mutated: every channel before the first deficient one has its
read pointer advanced by `nframes`, and the deficient channel's read
pointer advances by the number of samples it actually held; only the
channels after it are untouched. -/
theorem C1_run_underrun (env : Env) (a : RunArgs) (s : DRState)
    (good : List Ring) (bad : Ring) (after : List Ring)
    (hactive : s.active = true) (hpend : s.pending_active = true)
    (hspeed : a.speed ≠ 0)
    (hmon : env.monitoring = { disk := true, input := false })
    (hrr : a.result_required = true)
    (hfades : env.use_transport_fades = true)
    (hglp : env.global_locate_pending = false)
    (hpo : s.pending_overwrite = false)
    (hndo : env.no_disk_output = false)
    (hstart : a.start_sample = s.playback_sample)
    (hchan : s.channels = good ++ bad :: after)
    (hgood : ∀ r ∈ good, a.nframes ≤ r.read_space)
    (hbad : bad.read_space < a.nframes) :
    countUnderruns (run env a s).2 = 1 ∧
    (run env a s).1.playback_sample = s.playback_sample ∧
    (run env a s).1.need_butler = s.need_butler ∧
    (run env a s).1.samples_read_from_ringbuffer =
      s.samples_read_from_ringbuffer ∧
    (run env a s).1.channels =
      good.map (fun r => (r.read a.nframes).2) ++
        (bad.read a.nframes).2 :: after := by
  have hrun : run env a s = runBody2 env a s := by
    simp [run, hactive, hpend, runBody, hfades]
  have htg : runTargetGain env a = 1 := by
    simp [runTargetGain, hspeed, hmon]
  have hdstc : (if a.speed = 0 then 0 else a.nframes) = a.nframes := if_neg hspeed
  have hstill : (env.global_locate_pending || s.pending_overwrite) = false := by
    rw [hglp, hpo]
    rfl
  have hsec : runAudioSection env a (runTargetGain env a)
      (env.global_locate_pending || s.pending_overwrite)
      (if a.speed = 0 then 0 else a.nframes) s =
      runChannelsPart env a (runTargetGain env a) a.nframes env.monitoring
        { s with declick_offs := 0 } := by
    rw [hdstc, hstill]
    unfold runAudioSection
    rw [if_neg (by simp [hchan]),
        if_neg (by rw [htg]; rintro ⟨-, h⟩; norm_num at h),
        if_neg (by simp [hrr, hmon, hndo])]
  set L := runChanLoop env a (runTargetGain env a) a.nframes
      s.samples_read_from_ringbuffer s.samples_written_to_ringbuffer
      s.channels.length [] s.channels 0
      ⟨s.playback_sample, s.declick, 0, []⟩ with hLdef
  have hcp : runChannelsPart env a (runTargetGain env a) a.nframes
      env.monitoring { s with declick_offs := 0 } =
      ({ s with channels := L.1, playback_sample := L.2.1.playback_sample,
                declick := L.2.1.declick, declick_offs := L.2.1.declick_offs },
       env.monitoring, L.2.1.effects, decide (L.2.2 = LoopExit.aborted)) := rfl
  rw [hchan] at hLdef
  have hL := runChanLoop_first_deficient env a (runTargetGain env a) a.nframes
    s.samples_read_from_ringbuffer s.samples_written_to_ringbuffer hspeed
    good bad after [] 0 ⟨s.playback_sample, s.declick, 0, []⟩
    (good ++ bad :: after).length (le_refl _) hgood hbad hstart
  rw [← hLdef] at hL
  have habort : (decide (L.2.2 = LoopExit.aborted)) = true := by
    rw [hL.2.1]
    rfl
  have hfin : run env a s =
      ({ s with channels := L.1, playback_sample := L.2.1.playback_sample,
                declick := L.2.1.declick, declick_offs := L.2.1.declick_offs },
       L.2.1.effects) := by
    rw [hrun]
    unfold runBody2
    rw [if_neg (fun hcon => hspeed hcon.1), hsec, hcp]
    dsimp only
    rw [if_pos habort]
  rw [hfin]
  refine ⟨?_, hL.2.2.1, rfl, rfl, ?_⟩
  · rw [hL.2.2.2]
    rfl
  · rw [hL.1]
    rfl

/-- Claim C1 (counterexample): on a concrete underrunning cycle — one ring
of capacity 1024 holding 100 samples, 256 frames requested at speed 1 —
`Underrun` fires once and `playback_sample` is unchanged, but the ring
state IS mutated: the committed partial read advances the read pointer from
0 to 100, refuting "the ring buffer state is not mutated". -/
theorem C1_run_underrun_ring_mutated :
    countUnderruns (run stdEnv runArgs shortState).2 = 1 ∧
    (run stdEnv runArgs shortState).1.playback_sample =
      shortState.playback_sample ∧
    (run stdEnv runArgs shortState).1.channels ≠ shortState.channels ∧
    (run stdEnv runArgs shortState).1.channels =
      [{ size := 1024, read_idx := 100, write_idx := 100 }] := by
  refine ⟨?_, ?_, ?_, ?_⟩ <;> decide

/-- Witness for C1_run_underrun: the same concrete underrunning cycle. -/
theorem C1_run_underrun_witness :
    countUnderruns (run stdEnv runArgs shortState).2 = 1 ∧
    (run stdEnv runArgs shortState).1.playback_sample =
      shortState.playback_sample ∧
    (run stdEnv runArgs shortState).1.need_butler = shortState.need_butler ∧
    (run stdEnv runArgs shortState).1.samples_read_from_ringbuffer =
      shortState.samples_read_from_ringbuffer ∧
    (run stdEnv runArgs shortState).1.channels =
      ([] : List Ring).map (fun r => (r.read runArgs.nframes).2) ++
        (({ size := 1024, read_idx := 0, write_idx := 100 } : Ring).read
          runArgs.nframes).2 :: [] :=
  C1_run_underrun stdEnv runArgs shortState [] ⟨1024, 0, 100⟩ []
    rfl rfl (by decide) rfl rfl rfl rfl rfl rfl rfl rfl
    (by simp) (by decide)

end ArdourSpec













